import Mathlib

/-!
Shallow embedding of the browser-mock-api core (route matcher, middleware
pipeline, event emitter, state stores, request parser, fetch wrapper) and
proofs about the behaviour its specification claims.

Conventions used throughout:
- JavaScript `Map` objects are embedded as association lists in insertion
  order; `Map.set` overwrites the value at the first occurrence of the key
  (keeping the slot) and otherwise appends, exactly like the ECMAScript
  specification of `Map.prototype.set`.  Plain-object property assignment
  (`obj[k] = v`) behaves the same way, so the same function models both.
- Object identity (references to mutable JS objects and to function values)
  is embedded as `Nat` addresses; heaps are explicit where a claim needs
  reference semantics.
- Fallible JS code (code that can `throw`) is embedded with `Except String`.
-/

/-- JavaScript `Map.prototype.get`: the value at the first occurrence of the
key, if any. -/
def mapGet? {α β : Type} [DecidableEq α] : List (α × β) → α → Option β
  | [], _ => none
  | (k0, v0) :: rest, k => if k0 = k then some v0 else mapGet? rest k

/-- JavaScript `Map.prototype.set` (and plain-object property assignment):
overwrite in place at the existing slot, else append at the end. -/
def mapSet {α β : Type} [DecidableEq α] : List (α × β) → α → β → List (α × β)
  | [], k, v => [(k, v)]
  | (k0, v0) :: rest, k, v =>
    if k0 = k then (k0, v) :: rest else (k0, v0) :: mapSet rest k v

/-- JavaScript `Map.prototype.delete` restricted to its effect on the entry
list: remove the first occurrence of the key. -/
def mapDelete {α β : Type} [DecidableEq α] : List (α × β) → α → List (α × β)
  | [], _ => []
  | (k0, v0) :: rest, k =>
    if k0 = k then rest else (k0, v0) :: mapDelete rest k

/-- Remove the first occurrence of an element from a list (the effect of
`EventTarget.removeEventListener` on the listener list). -/
def removeFirst {α : Type} [DecidableEq α] : List α → α → List α
  | [], _ => []
  | x :: rest, a => if x = a then rest else x :: removeFirst rest a

/-- Whether an `Except` computation succeeded (did not throw). -/
def exceptOk {ε α : Type} : Except ε α → Bool
  | .ok _ => true
  | .error _ => false

/-- Value of a hexadecimal digit character, if it is one. -/
def hexDigit? (c : Char) : Option Nat :=
  if '0' ≤ c ∧ c ≤ '9' then some (c.toNat - '0'.toNat)
  else if 'a' ≤ c ∧ c ≤ 'f' then some (c.toNat - 'a'.toNat + 10)
  else if 'A' ≤ c ∧ c ≤ 'F' then some (c.toNat - 'A'.toNat + 10)
  else none

/-- Modelled from the ECMAScript specification of `decodeURIComponent`
(a host builtin, not part of this repository): a `%` must be followed by two
hexadecimal digits, otherwise a `URIError` is thrown.  The model covers
single-byte (ASCII) escape sequences, which is all the claims exercise;
multi-byte sequences are rejected conservatively. -/
def decodeURIComponentChars : List Char → Except String (List Char)
  | [] => .ok []
  | '%' :: c1 :: c2 :: rest =>
    match hexDigit? c1, hexDigit? c2 with
    | some h1, some h2 =>
      if 16 * h1 + h2 < 128 then
        (decodeURIComponentChars rest).map (fun l => Char.ofNat (16 * h1 + h2) :: l)
      else .error "URIError: URI malformed"
    | _, _ => .error "URIError: URI malformed"
  | '%' :: _ => .error "URIError: URI malformed"
  | c :: rest => (decodeURIComponentChars rest).map (fun l => c :: l)

/-- The JavaScript `decodeURIComponent` builtin on strings. -/
def decodeURIComponent (s : String) : Except String String :=
  (decodeURIComponentChars s.data).map (fun l => String.mk l)

/-! ## Route matcher (`src/route-matcher.ts`)

`pathToRegexp` (the external `path-to-regexp` dependency) compiles a path
pattern into a regular expression plus a list of parameter keys.  It is
embedded abstractly: a compiled pattern is a function from a path to the
optional list of capture groups (`match[1]`, `match[2]`, …, where a
non-participating group is `none`), together with the key names. -/

/-- Result of `pathToRegexp(path, keys)`: the compiled regular expression
(as its `exec` behaviour on a path) and the extracted keys. -/
structure CompiledPattern where
  exec : String → Option (List (Option String))
  keys : List String

/-- A registered route, mirroring `RouteEntry` in `route-matcher.ts`;
handlers and options are abstract (`H`, `O`). -/
structure RouteEntry (H O : Type) where
  pattern : String → Option (List (Option String))
  keys : List String
  handler : H
  options : O
  originalPath : String

/-- Mirror of the `MatchResult` interface in `types.ts`. -/
structure MatchResult (H O : Type) where
  handler : H
  params : List (String × String)
  options : O
deriving DecidableEq

/-- The route matcher's state: the `routes: Map<string, RouteEntry>` field,
an insertion-ordered map from `"METHOD:path"` keys to entries. -/
structure RouteMatcher (H O : Type) where
  routes : List (String × RouteEntry H O)

/-- JavaScript `String.prototype.toUpperCase` (ASCII; methods are ASCII). -/
def jsToUpper (s : String) : String :=
  String.mk (s.data.map Char.toUpper)

/-- The composite registry key built by `register` and `unregister`:
`` `${method.toUpperCase()}:${path}` ``. -/
def routeKeyOf (method path : String) : String :=
  jsToUpper method ++ ":" ++ path

/-- Characters of a string up to (excluding) the first `:`. -/
def firstSegment : List Char → List Char
  | [] => []
  | c :: rest => if c = ':' then [] else c :: firstSegment rest

/-- The method component recovered by `routeKey.split(':')[0]`. -/
def keyMethod (routeKey : String) : String :=
  String.mk (firstSegment routeKey.data)

namespace RouteMatcher

/-- `RouteMatcher.register`, parameterised by the `pathToRegexp` collaborator
that compiles the path pattern. -/
def register {H O : Type} (compile : String → CompiledPattern)
    (method path : String) (handler : H) (options : O)
    (m : RouteMatcher H O) : RouteMatcher H O :=
  let c := compile path
  { routes := mapSet m.routes (routeKeyOf method path)
      { pattern := c.exec, keys := c.keys, handler := handler,
        options := options, originalPath := path } }

/-- The loop body of `RouteMatcher.extractParams`: `keys.forEach((key, index)
=> { const value = match[index + 1]; if (value !== undefined) params[key.name]
= decodeURIComponent(value); })`.  A `URIError` thrown by
`decodeURIComponent` aborts the whole `forEach` and propagates. -/
def extractParamsGo (groups : List (Option String)) :
    List String → Nat → List (String × String) →
    Except String (List (String × String))
  | [], _, params => .ok params
  | key :: restKeys, i, params =>
    match (groups.get? i).join with
    | none => extractParamsGo groups restKeys (i + 1) params
    | some v =>
      match decodeURIComponent v with
      | .error e => .error e
      | .ok d => extractParamsGo groups restKeys (i + 1) (mapSet params key d)

/-- `RouteMatcher.extractParams(keys, match)`. -/
def extractParams (keys : List String) (groups : List (Option String)) :
    Except String (List (String × String)) :=
  extractParamsGo groups keys 0 []

/-- The `for (const [routeKey, route] of this.routes)` loop of
`RouteMatcher.match`, running over the registry in insertion order with the
already-normalized method. -/
def matchGo {H O : Type} (normalized path : String) :
    List (String × RouteEntry H O) → Except String (Option (MatchResult H O))
  | [] => .ok none
  | (k, route) :: rest =>
    if keyMethod k = normalized then
      match route.pattern path with
      | some groups =>
        (extractParams route.keys groups).map
          (fun ps => some ⟨route.handler, ps, route.options⟩)
      | none => matchGo normalized path rest
    else matchGo normalized path rest

/-- `RouteMatcher.match(method, path)` (named `matchRoute` because `match` is
a Lean keyword).  Returns the first matching route or `none`; a `URIError`
from parameter decoding propagates as `Except.error`. -/
def matchRoute {H O : Type} (m : RouteMatcher H O) (method path : String) :
    Except String (Option (MatchResult H O)) :=
  matchGo (jsToUpper method) path m.routes

/-- One element of the list `RouteMatcher.getRoutes` returns. -/
structure RouteInfo (O : Type) where
  method : String
  path : String
  options : O
deriving DecidableEq

/-- `RouteMatcher.getRoutes()`. -/
def getRoutes {H O : Type} (m : RouteMatcher H O) : List (RouteInfo O) :=
  m.routes.map (fun kr => ⟨keyMethod kr.1, kr.2.originalPath, kr.2.options⟩)

/-- `RouteMatcher.unregister(method, path)`. -/
def unregister {H O : Type} (method path : String) (m : RouteMatcher H O) :
    RouteMatcher H O × Bool :=
  let k := routeKeyOf method path
  ({ routes := mapDelete m.routes k }, (mapGet? m.routes k).isSome)

/-- `RouteMatcher.clear()`. -/
def clear {H O : Type} (_ : RouteMatcher H O) : RouteMatcher H O :=
  { routes := [] }

end RouteMatcher

/-! ## Middleware pipeline (`src/middleware-pipeline.ts`)

`MiddlewarePipeline.execute` keeps a single mutable cursor `index` shared by
the whole execution.  `next()` either runs the final handler (once the cursor
has passed every middleware) or invokes the middleware at the cursor,
advancing it, with a per-invocation `safeNext` that throws
"next() has already been called" on a second call; a rejection coming out of
a middleware is caught, logged, and recovered by calling `next()` again at
the *current* cursor (fail-open).

Middleware functions are arbitrary JavaScript; they are embedded by a class
of behaviours sufficient for the claims.  The final handler built by the
fetch wrapper never rejects (it catches handler errors and substitutes a 500
response), so the terminal operation is a plain value. -/

/-- Behaviours a middleware can exhibit towards its continuation. -/
inductive MWB (R : Type) where
  /-- Return a response directly without invoking the continuation. -/
  | shortCircuit (r : R)
  /-- Invoke the continuation exactly once and return a transform of its
  result. -/
  | callOnce (f : R → R)
  /-- Throw before ever invoking the continuation. -/
  | throwBefore
  /-- Invoke the continuation twice, catching the error the second
  invocation throws, and return a transform of the first result. -/
  | callTwiceCatch (f : R → R)
  /-- Invoke the continuation twice without catching, so the thrown error
  rejects the middleware itself. -/
  | callTwiceNoCatch

/-- Observable events of one pipeline execution. -/
inductive PipeEvent where
  /-- A middleware (identified by its tag) was invoked. -/
  | mwRun (id : Nat)
  /-- A `safeNext` invocation threw "next() has already been called" into
  the middleware with this tag. -/
  | dblNext (id : Nat)
  /-- The pipeline's `catch` logged a rejection of the middleware with this
  tag and recovered by calling `next()`. -/
  | caught (id : Nat)
  /-- The final handler (terminal operation) was executed. -/
  | term
deriving DecidableEq

/-- Result of one `next()` call: the response it returns, the middleware
entries the shared cursor has not yet consumed, and the events observed. -/
structure RunResult (R : Type) where
  resp : R
  remaining : List (Nat × MWB R)
  events : List PipeEvent

/-- Fuel-indexed interpreter for `next()`; `remaining` plays the role of the
shared cursor (the suffix of the middleware list it has not passed).  With
fuel exceeding the list length the fuel never runs out (`runF_stable`). -/
def runF {R : Type} : Nat → R → List (Nat × MWB R) → RunResult R
  | 0, terminal, _ => ⟨terminal, [], []⟩
  | _ + 1, terminal, [] => ⟨terminal, [], [.term]⟩
  | fuel + 1, terminal, (id, b) :: rest =>
    match b with
    | .shortCircuit r => ⟨r, rest, [.mwRun id]⟩
    | .callOnce f =>
      let r := runF fuel terminal rest
      ⟨f r.resp, r.remaining, .mwRun id :: r.events⟩
    | .throwBefore =>
      let r := runF fuel terminal rest
      ⟨r.resp, r.remaining, .mwRun id :: .caught id :: r.events⟩
    | .callTwiceCatch f =>
      let r := runF fuel terminal rest
      ⟨f r.resp, r.remaining, (.mwRun id :: r.events) ++ [.dblNext id]⟩
    | .callTwiceNoCatch =>
      let r1 := runF fuel terminal rest
      let r2 := runF fuel terminal r1.remaining
      ⟨r2.resp, r2.remaining,
        (.mwRun id :: r1.events) ++ (.dblNext id :: .caught id :: r2.events)⟩

theorem runF_remaining_le {R : Type} :
    ∀ (fuel : Nat) (terminal : R) (l : List (Nat × MWB R)),
      (runF fuel terminal l).remaining.length ≤ l.length := by
  intro fuel
  induction fuel with
  | zero => intro terminal l; simp [runF]
  | succ g ih =>
    intro terminal l
    match l with
    | [] => simp [runF]
    | (id, b) :: rest =>
      match b with
      | .shortCircuit r => simp [runF]
      | .callOnce f =>
        simpa [runF] using Nat.le_succ_of_le (ih terminal rest)
      | .throwBefore =>
        simpa [runF] using Nat.le_succ_of_le (ih terminal rest)
      | .callTwiceCatch f =>
        simpa [runF] using Nat.le_succ_of_le (ih terminal rest)
      | .callTwiceNoCatch =>
        have h1 := ih terminal rest
        have h2 := ih terminal (runF g terminal rest).remaining
        simp only [runF, List.length_cons]
        exact Nat.le_succ_of_le (le_trans h2 h1)

theorem runF_stable {R : Type} (terminal : R) :
    ∀ (f1 f2 : Nat) (l : List (Nat × MWB R)),
      l.length < f1 → l.length < f2 →
      runF f1 terminal l = runF f2 terminal l := by
  intro f1
  induction f1 with
  | zero => intro f2 l h1 _; omega
  | succ g1 ih =>
    intro f2 l h1 h2
    match f2 with
    | 0 => omega
    | g2 + 1 =>
      match l with
      | [] => simp [runF]
      | (id, b) :: rest =>
        have hr1 : rest.length < g1 := by
          simpa [Nat.lt_succ_iff] using h1
        have hr2 : rest.length < g2 := by
          simpa [Nat.lt_succ_iff] using h2
        have hrec : runF g1 terminal rest = runF g2 terminal rest :=
          ih g2 rest hr1 hr2
        match b with
        | .shortCircuit r => simp [runF]
        | .callOnce f => simp [runF, hrec]
        | .throwBefore => simp [runF, hrec]
        | .callTwiceCatch f => simp [runF, hrec]
        | .callTwiceNoCatch =>
          have hlen : (runF g1 terminal rest).remaining.length ≤ rest.length :=
            runF_remaining_le g1 terminal rest
          have hrec2 : runF g1 terminal (runF g1 terminal rest).remaining
              = runF g2 terminal (runF g1 terminal rest).remaining :=
            ih g2 (runF g1 terminal rest).remaining
              (lt_of_le_of_lt hlen hr1) (lt_of_le_of_lt hlen hr2)
          simp only [runF]
          rw [← hrec, ← hrec2]

/-- `MiddlewarePipeline.execute(request, finalHandler)`: run `next()` from
cursor 0 over the whole middleware list. -/
def MiddlewarePipeline.execute {R : Type} (terminal : R)
    (l : List (Nat × MWB R)) : RunResult R :=
  runF (l.length + 1) terminal l

theorem execute_nil {R : Type} (terminal : R) :
    MiddlewarePipeline.execute terminal ([] : List (Nat × MWB R))
      = ⟨terminal, [], [.term]⟩ := rfl

theorem execute_callOnce {R : Type} (terminal : R) (id : Nat) (f : R → R)
    (rest : List (Nat × MWB R)) :
    MiddlewarePipeline.execute terminal ((id, .callOnce f) :: rest)
      = let r := MiddlewarePipeline.execute terminal rest
        ⟨f r.resp, r.remaining, .mwRun id :: r.events⟩ := rfl

theorem execute_callTwiceCatch {R : Type} (terminal : R) (id : Nat)
    (f : R → R) (rest : List (Nat × MWB R)) :
    MiddlewarePipeline.execute terminal ((id, .callTwiceCatch f) :: rest)
      = let r := MiddlewarePipeline.execute terminal rest
        ⟨f r.resp, r.remaining, (.mwRun id :: r.events) ++ [.dblNext id]⟩ :=
  rfl

theorem execute_callTwiceNoCatch {R : Type} (terminal : R) (id : Nat)
    (rest : List (Nat × MWB R)) :
    MiddlewarePipeline.execute terminal ((id, .callTwiceNoCatch) :: rest)
      = let r1 := MiddlewarePipeline.execute terminal rest
        let r2 := MiddlewarePipeline.execute terminal r1.remaining
        ⟨r2.resp, r2.remaining,
          (.mwRun id :: r1.events) ++ (.dblNext id :: .caught id :: r2.events)⟩ := by
  have hlen : (runF (rest.length + 1) terminal rest).remaining.length
      ≤ rest.length := runF_remaining_le _ terminal rest
  simp only [MiddlewarePipeline.execute, List.length_cons, runF]
  rw [runF_stable terminal (rest.length + 1)
    ((runF (rest.length + 1) terminal rest).remaining.length + 1)
    (runF (rest.length + 1) terminal rest).remaining
    (Nat.lt_succ_of_le hlen) (Nat.lt_succ_self _)]

/-! ## Event emitter (`src/event-emitter.ts`)

`EventEmitter extends EventTarget`.  `on` creates a fresh wrapper closure
around the handler and both records it in `handlerMap` (a `Map` from event
type to a `Map` from handler function to wrapper) and registers it with
`addEventListener`; `off` looks the wrapper up in `handlerMap` and removes
it with `removeEventListener`; `emit` dispatches a `CustomEvent`, which
invokes every wrapper currently registered for that type in registration
order.  Handler functions are identified by `Nat` (function identity);
wrapper closures are allocated fresh `Nat` identities. -/

structure EventEmitter where
  /-- The `EventTarget` listener list: `(eventType, wrapper)` registrations
  in `addEventListener` order. -/
  target : List (String × Nat)
  /-- Which handler each wrapper closure captured. -/
  wrapperHandler : List (Nat × Nat)
  /-- The `handlerMap : Map<EventType, Map<Function, EventListener>>`
  bookkeeping field. -/
  handlerMap : List (String × List (Nat × Nat))
  /-- Allocator for fresh wrapper identities. -/
  nextWrapper : Nat

/-- The freshly constructed emitter. -/
def EventEmitter.empty : EventEmitter := ⟨[], [], [], 0⟩

/-- `EventEmitter.on(event, handler)`. -/
def EventEmitter.on (s : EventEmitter) (event : String) (handler : Nat) :
    EventEmitter :=
  let w := s.nextWrapper
  let inner := (mapGet? s.handlerMap event).getD []
  { target := s.target ++ [(event, w)]
    wrapperHandler := s.wrapperHandler ++ [(w, handler)]
    handlerMap := mapSet s.handlerMap event (mapSet inner handler w)
    nextWrapper := w + 1 }

/-- `EventEmitter.off(event, handler)`, returning the updated emitter and
the boolean result. -/
def EventEmitter.off (s : EventEmitter) (event : String) (handler : Nat) :
    EventEmitter × Bool :=
  match mapGet? s.handlerMap event with
  | none => (s, false)
  | some inner =>
    match mapGet? inner handler with
    | none => (s, false)
    | some w =>
      let target' := removeFirst s.target (event, w)
      let inner' := mapDelete inner handler
      let handlerMap' :=
        if inner'.isEmpty then mapDelete s.handlerMap event
        else mapSet s.handlerMap event inner'
      ({ s with target := target', handlerMap := handlerMap' }, true)

/-- `EventEmitter.emit(event, ...)`: the sequence of handler invocations the
dispatched `CustomEvent` produces, in listener registration order (each
wrapper calls its captured handler; a throwing handler is caught inside the
wrapper and does not stop dispatch, so the invocation still appears). -/
def EventEmitter.emit (s : EventEmitter) (event : String) : List Nat :=
  (s.target.filter (fun p => p.1 = event)).filterMap
    (fun p => mapGet? s.wrapperHandler p.2)

/-- `EventEmitter.listenerCount(event)`. -/
def EventEmitter.listenerCount (s : EventEmitter) (event : String) : Nat :=
  ((mapGet? s.handlerMap event).getD []).length

/-! ## State store (`src/state-store.ts`)

Mutable JS objects live in an explicit heap of `V`-values addressed by
`Nat`.  A `StateStore` holds one reference (`this.data`).  `get()` wraps the
*currently held* object in a readonly proxy: reading through the proxy reads
the wrapped object, and mutation attempts throw — so a view is embedded as
the address it wraps.  `set(value)` replaces the held reference; `set(fn)`
replaces it with a reference to the (fresh) object the updater returns,
leaving existing heap cells untouched. -/

structure Heap (V : Type) where
  mem : Nat → V
  next : Nat

/-- Allocate a fresh object holding `v`, returning its address. -/
def Heap.alloc {V : Type} (h : Heap V) (v : V) : Heap V × Nat :=
  ({ mem := fun a => if a = h.next then v else h.mem a, next := h.next + 1 },
    h.next)

/-- Read the object at an address (property reads through a readonly proxy
delegate to the wrapped target). -/
def Heap.read {V : Type} (h : Heap V) (a : Nat) : V := h.mem a

/-- The `StateStore` instance state: its private `data` reference. -/
structure StateStore where
  data : Nat

/-- `StateStore.get()`: a readonly proxy wrapping the currently held object;
the view is the address it wraps. -/
def StateStore.get (s : StateStore) : Nat := s.data

/-- `StateStore.set(value)` with a replacement object (a reference the
caller already holds): `this.data = value`. -/
def StateStore.setValue (s : StateStore) (a : Nat) : StateStore :=
  { s with data := a }

/-- `StateStore.set(updater)`: `this.data = updater(this.data)`.  The
updater is a pure transformation whose result is a fresh object. -/
def StateStore.setUpdater {V : Type} (h : Heap V) (s : StateStore)
    (f : V → V) : Heap V × StateStore :=
  let alloced := h.alloc (f (h.read s.data))
  (alloced.1, { s with data := alloced.2 })

/-! ## State store manager (`src/state-store.ts`, `StateStoreManager`) -/

/-- The manager state: its `stores: Map<string, StateStore<any>>` keyed by
store key, each entry an address into a heap of current store values
(`storeData.get? a` is the value the `StateStore` at address `a` holds). -/
structure StateStoreManager (V : Type) where
  stores : List (String × Nat)
  storeData : List V

/-- The freshly constructed manager. -/
def StateStoreManager.empty {V : Type} : StateStoreManager V := ⟨[], []⟩

/-- `StateStoreManager.hasStore(key)`. -/
def StateStoreManager.hasStore {V : Type} (m : StateStoreManager V)
    (key : String) : Bool :=
  (mapGet? m.stores key).isSome

/-- `StateStoreManager.createStore(key, initialData)`: if the key exists,
warn and return the existing store; otherwise construct a fresh store and
record it.  Returns (manager, store address, whether the warning fired). -/
def StateStoreManager.createStore {V : Type} (m : StateStoreManager V)
    (key : String) (initialData : V) : StateStoreManager V × Nat × Bool :=
  if m.hasStore key then
    (m, (mapGet? m.stores key).getD 0, true)
  else
    ({ stores := m.stores ++ [(key, m.storeData.length)],
       storeData := m.storeData ++ [initialData] },
      m.storeData.length, false)

/-- `StateStoreManager.getStore(key)`. -/
def StateStoreManager.getStore {V : Type} (m : StateStoreManager V)
    (key : String) : Option Nat :=
  mapGet? m.stores key

/-- `StateStoreManager.deleteStore(key)`. -/
def StateStoreManager.deleteStore {V : Type} (m : StateStoreManager V)
    (key : String) : StateStoreManager V × Bool :=
  ({ m with stores := mapDelete m.stores key },
    (mapGet? m.stores key).isSome)

/-- `StateStoreManager.getStoreKeys()`. -/
def StateStoreManager.getStoreKeys {V : Type} (m : StateStoreManager V) :
    List String :=
  m.stores.map Prod.fst

/-! ## Request parser (`src/request-parser.ts`)

Only `createWithParams` is needed by the claims.  A `MockRequest` record's
object-valued fields (`params`, `query`, `headers`) hold references,
embedded as `Nat` addresses; the remaining fields are values. -/

/-- Mirror of the `MockRequest` interface, with object-valued fields as
heap addresses and the body abstract. -/
structure MockRequest (B : Type) where
  body : B
  baseUrl : String
  method : String
  params : Nat
  query : Nat
  path : String
  host : String
  hostname : String
  headers : Nat

namespace RequestParser

/-- `RequestParser.createWithParams(baseRequest, params)`:
`{ ...baseRequest, params }` — a fresh record spreading every field of the
base request (object fields by reference) and overriding `params` with the
given reference. -/
def createWithParams {B : Type} (baseRequest : MockRequest B)
    (params : Nat) : MockRequest B :=
  { baseRequest with params := params }

end RequestParser

/-! ## Fetch wrapper (`src/fetch-wrapper.ts` part of `state-store.ts` blob)

`wrappedFetch` is embedded at the level the event/error claims need: the
request parse outcome, the route matcher state, the middleware chain with
the final-handler response (the final handler built inside `wrappedFetch`
catches handler errors and substitutes a 500 response, so it always yields
a response), and the original fetch outcome are inputs; the lifecycle
events emitted and the settlement of the returned promise are outputs.
`emit` never throws (wrappers catch handler errors), the pipeline never
rejects (`MiddlewarePipeline.execute` is total), and
`return this.forwardToOriginalFetch(...)` inside the `try` returns the
promise without awaiting it, so a forwarding rejection bypasses the
`catch`. -/

/-- The request record as the orchestrator consumes it: the fields
`wrappedFetch` reads (`method`, `path` for matching, `params` attached
after the match). -/
structure ORequest where
  method : String
  path : String
  params : List (String × String)

/-- The four lifecycle event types. -/
inductive FetchEvent where
  | onRequest
  | onMock
  | onNetwork
  | onResponse
deriving DecidableEq

/-- `FetchWrapper.forwardToOriginalFetch`: emit `ON_NETWORK`, await the
original fetch, emit `ON_RESPONSE` on success; on rejection rethrow without
emitting `ON_RESPONSE`. -/
def FetchWrapper.forwardToOriginalFetch {R : Type}
    (originalFetch : Except String R) : List FetchEvent × Except String R :=
  match originalFetch with
  | .ok r => ([.onNetwork, .onResponse], .ok r)
  | .error e => ([.onNetwork], .error e)

/-- `FetchWrapper.wrappedFetch`: parse, emit `ON_REQUEST`, match; on a match
attach params, emit `ON_MOCK`, run the middleware pipeline around the final
handler, emit `ON_RESPONSE`, return the response; on no match forward; on
any error thrown inside the `try` (parse failure, or the `URIError` a match
can throw) fall back to forwarding.  Returns the emitted events and the
settlement. -/
def FetchWrapper.wrappedFetch {H O R : Type} (m : RouteMatcher H O)
    (parseResult : Except String ORequest) (handlerResp : R)
    (chain : List (Nat × MWB R)) (originalFetch : Except String R) :
    List FetchEvent × Except String R :=
  match parseResult with
  | .error _ =>
    FetchWrapper.forwardToOriginalFetch originalFetch
  | .ok req =>
    match RouteMatcher.matchRoute m req.method req.path with
    | .ok (some matchResult) =>
      let _requestWithParams := { req with params := matchResult.params }
      let response := (MiddlewarePipeline.execute handlerResp chain).resp
      ([.onRequest, .onMock, .onResponse], .ok response)
    | .ok none =>
      let fwd := FetchWrapper.forwardToOriginalFetch originalFetch
      (.onRequest :: fwd.1, fwd.2)
    | .error _ =>
      let fwd := FetchWrapper.forwardToOriginalFetch originalFetch
      (.onRequest :: fwd.1, fwd.2)

/-! ## Route matcher lemmas and claims C1, C6, C8 -/

/-- Whether a registry entry matches (method comparison of the `match` loop
succeeds and the compiled pattern matches the path). -/
def entryMatches {H O : Type} (normalized path : String)
    (x : String × RouteEntry H O) : Bool :=
  decide (keyMethod x.1 = normalized) && (x.2.pattern path).isSome

theorem matchGo_first_at {H O : Type} (normalized path : String) :
    ∀ (l : List (String × RouteEntry H O)) (i : Nat) (k : String)
      (e : RouteEntry H O) (groups : List (Option String)),
      l.get? i = some (k, e) →
      keyMethod k = normalized →
      e.pattern path = some groups →
      (∀ j, j < i → ∀ x, l.get? j = some x →
        entryMatches normalized path x = false) →
      RouteMatcher.matchGo normalized path l
        = (RouteMatcher.extractParams e.keys groups).map
            (fun ps => some ⟨e.handler, ps, e.options⟩) := by
  intro l
  induction l with
  | nil => intro i k e groups hget; simp at hget
  | cons hd rest ih =>
    intro i k e groups hget hkey hexec hfirst
    obtain ⟨k0, e0⟩ := hd
    match i with
    | 0 =>
      simp only [List.get?] at hget
      obtain ⟨rfl, rfl⟩ : k0 = k ∧ e0 = e := by
        constructor <;> injection hget with h1 <;> injection h1
      simp only [RouteMatcher.matchGo, if_pos hkey, hexec]
    | j + 1 =>
      have h0 := hfirst 0 (Nat.succ_pos j) (k0, e0) rfl
      have hrest : RouteMatcher.matchGo normalized path rest
          = (RouteMatcher.extractParams e.keys groups).map
              (fun ps => some ⟨e.handler, ps, e.options⟩) := by
        refine ih j k e groups ?_ hkey hexec ?_
        · simpa using hget
        · intro j' hj' x hx
          exact hfirst (j' + 1) (Nat.succ_lt_succ hj') x (by simpa using hx)
      by_cases hkm : keyMethod k0 = normalized
      · have hpat : e0.pattern path = none := by
          rcases hp : e0.pattern path with _ | g
          · rfl
          · exfalso
            rw [entryMatches] at h0
            simp [hkm, hp] at h0
        simp only [RouteMatcher.matchGo, if_pos hkm, hpat]
        exact hrest
      · simp only [RouteMatcher.matchGo, if_neg hkm]
        exact hrest

/-- C1: for every registry state, if the entry at slot `i` matches the
normalized method and the path, and no earlier slot matches, then `match`
returns exactly what that entry yields — its handler, its extracted
(percent-decoded) params, and its options — regardless of any later
matching entries. -/
theorem RouteMatcher.match_first_registered_wins {H O : Type}
    (m : RouteMatcher H O) (method path : String) (i : Nat) (k : String)
    (e : RouteEntry H O) (groups : List (Option String))
    (hget : m.routes.get? i = some (k, e))
    (hkey : keyMethod k = jsToUpper method)
    (hexec : e.pattern path = some groups)
    (hfirst : ∀ j, j < i → ∀ x, m.routes.get? j = some x →
      entryMatches (jsToUpper method) path x = false) :
    RouteMatcher.matchRoute m method path
      = (RouteMatcher.extractParams e.keys groups).map
          (fun ps => some ⟨e.handler, ps, e.options⟩) :=
  matchGo_first_at (jsToUpper method) path m.routes i k e groups
    hget hkey hexec hfirst

/-- Modelled behaviour of `pathToRegexp("/admin/:id")`: one named segment
after `/admin/`. -/
def adminIdExec (path : String) : Option (List (Option String)) :=
  match path.data with
  | '/' :: 'a' :: 'd' :: 'm' :: 'i' :: 'n' :: '/' :: rest =>
    if rest ≠ [] ∧ '/' ∉ rest then some [some (String.mk rest)] else none
  | _ => none

/-- Modelled behaviour of `pathToRegexp("/users/:id")` (and of the
overlapping `"/users/:name"`): one named segment after `/users/`. -/
def usersIdExec (path : String) : Option (List (Option String)) :=
  match path.data with
  | '/' :: 'u' :: 's' :: 'e' :: 'r' :: 's' :: '/' :: rest =>
    if rest ≠ [] ∧ '/' ∉ rest then some [some (String.mk rest)] else none
  | _ => none

/-- Demo registry: a non-overlapping admin route followed by two
overlapping user routes, all for GET. -/
def demoMatcher : RouteMatcher Nat Nat :=
  ⟨[("GET:/admin/:id", ⟨adminIdExec, ["id"], 1, 10, "/admin/:id"⟩),
    ("GET:/users/:id", ⟨usersIdExec, ["id"], 2, 20, "/users/:id"⟩),
    ("GET:/users/:name", ⟨usersIdExec, ["name"], 3, 30, "/users/:name"⟩)]⟩

theorem RouteMatcher.match_first_registered_wins_witness :
    RouteMatcher.matchRoute demoMatcher "get" "/users/42"
      = (RouteMatcher.extractParams ["id"] [some "42"]).map
          (fun ps => some ⟨2, ps, 20⟩) :=
  RouteMatcher.match_first_registered_wins demoMatcher "get" "/users/42" 1
    "GET:/users/:id" ⟨usersIdExec, ["id"], 2, 20, "/users/:id"⟩ [some "42"]
    (by rfl) (by rfl) (by rfl)
    (by
      intro j hj x hx
      interval_cases j
      · simp only [demoMatcher] at hx
        injection hx with hx'
        subst hx'
        decide)

/-- C6 counterexample: a path whose matched parameter segment is a lone `%`
makes `decodeURIComponent` throw inside `extractParams`, and the `URIError`
propagates out of `match` — so `match` is not total. -/
theorem RouteMatcher.match_throws_on_malformed_escape :
    RouteMatcher.matchRoute demoMatcher "GET" "/users/%"
        = Except.error "URIError: URI malformed"
      ∧ exceptOk (RouteMatcher.matchRoute demoMatcher "GET" "/users/%")
        = false := by
  constructor <;> rfl

/-- Whether every parameter value any registered pattern captures on this
path survives `decodeURIComponent` (is a well-formed percent-encoding). -/
def allCapturedDecode {H O : Type} (path : String)
    (l : List (String × RouteEntry H O)) : Bool :=
  l.all (fun x =>
    match x.2.pattern path with
    | none => true
    | some groups =>
      groups.all (fun g =>
        match g with
        | none => true
        | some v => exceptOk (decodeURIComponent v)))

theorem extractParamsGo_ok (groups : List (Option String))
    (h : ∀ v, some v ∈ groups → exceptOk (decodeURIComponent v) = true) :
    ∀ (keys : List String) (i : Nat) (params : List (String × String)),
      exceptOk (RouteMatcher.extractParamsGo groups keys i params) = true := by
  intro keys
  induction keys with
  | nil => intro i params; rfl
  | cons key restKeys ih =>
    intro i params
    simp only [RouteMatcher.extractParamsGo]
    rcases hj : (groups.get? i).join with _ | v
    · exact ih (i + 1) params
    · have hmem : some v ∈ groups := by
        rw [Option.join_eq_some] at hj
        exact List.get?_mem hj
      have hdec := h v hmem
      show exceptOk
        (match decodeURIComponent v with
          | Except.error e => Except.error e
          | Except.ok d =>
            RouteMatcher.extractParamsGo groups restKeys (i + 1)
              (mapSet params key d)) = true
      rcases hd : decodeURIComponent v with e | d
      · rw [hd] at hdec; simp [exceptOk] at hdec
      · exact ih (i + 1) (mapSet params key d)

theorem matchGo_ok_of_decodable {H O : Type} (normalized path : String) :
    ∀ (l : List (String × RouteEntry H O)),
      allCapturedDecode path l = true →
      exceptOk (RouteMatcher.matchGo normalized path l) = true := by
  intro l
  induction l with
  | nil => intro _; rfl
  | cons hd rest ih =>
    intro h
    obtain ⟨k0, e0⟩ := hd
    rw [allCapturedDecode, List.all_cons, Bool.and_eq_true] at h
    obtain ⟨hhd, hrest⟩ := h
    have ihrest := ih hrest
    by_cases hkm : keyMethod k0 = normalized
    · rcases hp : e0.pattern path with _ | groups
      · simpa [RouteMatcher.matchGo, hkm, hp] using ihrest
      · have hgroups : ∀ v, some v ∈ groups →
            exceptOk (decodeURIComponent v) = true := by
          intro v hv
          rw [hp] at hhd
          simp only [List.all_eq_true] at hhd
          exact hhd (some v) hv
        have hok := extractParamsGo_ok groups hgroups e0.keys 0 []
        simp only [RouteMatcher.matchGo, if_pos hkm, hp]
        rcases hx : RouteMatcher.extractParams e0.keys groups with e | ps
        · exfalso
          have hok' : exceptOk (RouteMatcher.extractParams e0.keys groups)
              = true := hok
          rw [hx] at hok'
          simp [exceptOk] at hok'
        · rfl
    · simpa [RouteMatcher.matchGo, hkm] using ihrest

/-- C6 amended: `match` is total — returning either a decoded `MatchResult`
or the explicit no-match `none` — whenever every parameter value captured on
the path by a registered pattern is a well-formed percent-encoding; a
malformed captured value (such as a lone `%`) instead makes `match` throw
the `URIError` from `decodeURIComponent`
(`RouteMatcher.match_throws_on_malformed_escape`). -/
theorem RouteMatcher.match_total_of_decodable_captures {H O : Type}
    (m : RouteMatcher H O) (method path : String)
    (h : allCapturedDecode path m.routes = true) :
    exceptOk (RouteMatcher.matchRoute m method path) = true :=
  matchGo_ok_of_decodable (jsToUpper method) path m.routes h

theorem RouteMatcher.match_total_of_decodable_captures_witness :
    allCapturedDecode "/users/jane" demoMatcher.routes = true
      ∧ exceptOk (RouteMatcher.matchRoute demoMatcher "GET" "/users/jane")
        = true :=
  ⟨by decide,
    RouteMatcher.match_total_of_decodable_captures demoMatcher "GET"
      "/users/jane" (by decide)⟩

theorem mapSet_at {α β : Type} [DecidableEq α] :
    ∀ (l : List (α × β)) (i : Nat) (k : α) (e : β) (v : β),
      l.get? i = some (k, e) →
      (∀ j, j < i → ∀ x, l.get? j = some x → x.1 ≠ k) →
      mapSet l k v = l.set i (k, v) := by
  intro l
  induction l with
  | nil => intro i k e v hget; simp at hget
  | cons hd rest ih =>
    intro i k e v hget hfirst
    obtain ⟨k0, v0⟩ := hd
    match i with
    | 0 =>
      simp only [List.get?] at hget
      have hk0 : k0 = k := by
        injection hget with h1; injection h1
      subst hk0
      simp [mapSet]
    | j + 1 =>
      have hne : k0 ≠ k := hfirst 0 (Nat.succ_pos j) (k0, v0) rfl
      have hrest : mapSet rest k v = rest.set j (k, v) := by
        refine ih j k e v (by simpa using hget) ?_
        intro j' hj' x hx
        exact hfirst (j' + 1) (Nat.succ_lt_succ hj') x (by simpa using hx)
      simp [mapSet, if_neg hne, hrest, List.set]

theorem getRoutes_set {H O : Type} (l : List (String × RouteEntry H O))
    (i : Nat) (x : String × RouteEntry H O) :
    RouteMatcher.getRoutes ⟨l.set i x⟩
      = (RouteMatcher.getRoutes ⟨l⟩).set i
          ⟨keyMethod x.1, x.2.originalPath, x.2.options⟩ := by
  simp only [RouteMatcher.getRoutes]
  rw [List.map_set]

/-- C8: re-registering an already-registered (method, pattern) key replaces
the entry's handler and options at its original slot: the registry list is
the old list with only slot `i` replaced (so iteration order — hence both
`getRoutes` ordering and `match`'s first-match priority — is preserved, and
the entry is not moved to the end), and `getRoutes` likewise changes only
slot `i`. -/
theorem RouteMatcher.register_overwrites_in_place {H O : Type}
    (compile : String → CompiledPattern) (method path : String)
    (handler' : H) (options' : O) (m : RouteMatcher H O) (i : Nat)
    (e : RouteEntry H O)
    (hget : m.routes.get? i = some (routeKeyOf method path, e))
    (hfirst : ∀ j, j < i → ∀ x, m.routes.get? j = some x →
      x.1 ≠ routeKeyOf method path) :
    (RouteMatcher.register compile method path handler' options' m).routes
        = m.routes.set i (routeKeyOf method path,
            ⟨(compile path).exec, (compile path).keys, handler', options',
              path⟩)
      ∧ RouteMatcher.getRoutes
          (RouteMatcher.register compile method path handler' options' m)
        = (RouteMatcher.getRoutes m).set i
            ⟨keyMethod (routeKeyOf method path), path, options'⟩ := by
  have hroutes :
      (RouteMatcher.register compile method path handler' options' m).routes
        = m.routes.set i (routeKeyOf method path,
            ⟨(compile path).exec, (compile path).keys, handler', options',
              path⟩) :=
    mapSet_at m.routes i (routeKeyOf method path) e _ hget hfirst
  refine ⟨hroutes, ?_⟩
  have : RouteMatcher.register compile method path handler' options' m
      = ⟨m.routes.set i (routeKeyOf method path,
          ⟨(compile path).exec, (compile path).keys, handler', options',
            path⟩)⟩ := by
    cases hm : RouteMatcher.register compile method path handler' options' m
    simp only [← hroutes, hm]
  rw [this, getRoutes_set]

/-- Trivial compiled-pattern collaborator for the C8 witness (the compiled
pattern itself is irrelevant to slot preservation). -/
def demoCompile (_path : String) : CompiledPattern :=
  ⟨fun _ => none, []⟩

theorem RouteMatcher.register_overwrites_in_place_witness :
    (RouteMatcher.register demoCompile "get" "/users/:id" 9 90
        demoMatcher).routes
        = demoMatcher.routes.set 1 (routeKeyOf "get" "/users/:id",
            ⟨(demoCompile "/users/:id").exec, (demoCompile "/users/:id").keys,
              9, 90, "/users/:id"⟩)
      ∧ RouteMatcher.getRoutes
          (RouteMatcher.register demoCompile "get" "/users/:id" 9 90
            demoMatcher)
        = (RouteMatcher.getRoutes demoMatcher).set 1
            ⟨keyMethod (routeKeyOf "get" "/users/:id"), "/users/:id", 90⟩ :=
  RouteMatcher.register_overwrites_in_place demoCompile "get" "/users/:id"
    9 90 demoMatcher 1 ⟨usersIdExec, ["id"], 2, 20, "/users/:id"⟩
    (by rfl)
    (by
      intro j hj x hx
      interval_cases j
      simp only [demoMatcher] at hx
      injection hx with hx'
      subst hx'
      decide)

/-! ## Middleware pipeline claims (C3) -/

/-- A chain of well-behaved middlewares: each invokes its continuation
exactly once and transforms the result. -/
def onceChain {R : Type} (l : List (Nat × (R → R))) : List (Nat × MWB R) :=
  l.map (fun p => (p.1, MWB.callOnce p.2))

/-- Composition of the transforms of a well-behaved chain, outermost
(first-registered) last. -/
def applyAll {R : Type} (l : List (Nat × (R → R))) (r : R) : R :=
  l.foldr (fun p acc => p.2 acc) r

theorem execute_onceChain {R : Type} (t : R) (l : List (Nat × (R → R))) :
    MiddlewarePipeline.execute t (onceChain l)
      = ⟨applyAll l t, [],
          (l.map (fun p => PipeEvent.mwRun p.1)) ++ [.term]⟩ := by
  induction l with
  | nil => rfl
  | cons p rest ih =>
    obtain ⟨id, f⟩ := p
    rw [onceChain, List.map_cons]
    rw [execute_callOnce]
    show (⟨f (MiddlewarePipeline.execute t (onceChain rest)).resp,
      (MiddlewarePipeline.execute t (onceChain rest)).remaining,
      .mwRun id :: (MiddlewarePipeline.execute t (onceChain rest)).events⟩
        : RunResult R) = _
    rw [ih]
    simp [applyAll, onceChain]

/-- C3 counterexample: a single middleware that calls `next()` twice without
catching the resulting error makes the pipeline's fail-open recovery call
`next()` again, so the terminal operation executes twice — not exactly
once as the claim states for the does-not-catch case. -/
theorem MiddlewarePipeline.double_next_uncaught_reruns_terminal :
    (MiddlewarePipeline.execute (0 : Nat)
        [(0, MWB.callTwiceNoCatch)]).events.count PipeEvent.term = 2
      ∧ ¬((MiddlewarePipeline.execute (0 : Nat)
        [(0, MWB.callTwiceNoCatch)]).events.count PipeEvent.term = 1) := by
  constructor <;> decide

/-- C3 amended: when a middleware invokes its continuation a second time
the second invocation fails with the "next() has already been called" error
signalled to that middleware; if the middleware catches the error, the rest
of the chain is unaffected — every other middleware and the terminal
operation execute exactly once (the execution trace is exactly one
`mwRun` per middleware in order, one `term`, and one `dblNext` for the
offender).  If it does not catch, the pipeline's fail-open recovery invokes
the continuation again and the terminal operation runs a second time
(`MiddlewarePipeline.double_next_uncaught_reruns_terminal`). -/
theorem MiddlewarePipeline.double_next_caught_isolated {R : Type} (t : R)
    (pre post : List (Nat × (R → R))) (kid : Nat) (g : R → R) :
    MiddlewarePipeline.execute t
        (onceChain pre ++ (kid, MWB.callTwiceCatch g) :: onceChain post)
      = ⟨applyAll pre (g (applyAll post t)), [],
          (pre.map (fun p => PipeEvent.mwRun p.1))
            ++ PipeEvent.mwRun kid :: (post.map (fun p => PipeEvent.mwRun p.1))
            ++ [PipeEvent.term, PipeEvent.dblNext kid]⟩
      ∧ (MiddlewarePipeline.execute t
          (onceChain pre ++ (kid, MWB.callTwiceCatch g) :: onceChain post)
          ).events.count PipeEvent.term = 1 := by
  have htrace : MiddlewarePipeline.execute t
      (onceChain pre ++ (kid, MWB.callTwiceCatch g) :: onceChain post)
      = ⟨applyAll pre (g (applyAll post t)), [],
          (pre.map (fun p => PipeEvent.mwRun p.1))
            ++ PipeEvent.mwRun kid :: (post.map (fun p => PipeEvent.mwRun p.1))
            ++ [PipeEvent.term, PipeEvent.dblNext kid]⟩ := by
    induction pre with
    | nil =>
      rw [onceChain, List.map_nil, List.nil_append]
      rw [execute_callTwiceCatch]
      show (⟨g (MiddlewarePipeline.execute t (onceChain post)).resp,
        (MiddlewarePipeline.execute t (onceChain post)).remaining,
        (.mwRun kid :: (MiddlewarePipeline.execute t (onceChain post)).events)
          ++ [.dblNext kid]⟩ : RunResult R) = _
      rw [execute_onceChain]
      simp [applyAll]
    | cons p rest ih =>
      obtain ⟨id, f⟩ := p
      rw [onceChain, List.map_cons, List.cons_append]
      rw [execute_callOnce]
      show (⟨f (MiddlewarePipeline.execute t
          (onceChain rest ++ (kid, MWB.callTwiceCatch g) :: onceChain post)).resp,
        (MiddlewarePipeline.execute t
          (onceChain rest ++ (kid, MWB.callTwiceCatch g) :: onceChain post)).remaining,
        .mwRun id :: (MiddlewarePipeline.execute t
          (onceChain rest ++ (kid, MWB.callTwiceCatch g) :: onceChain post)).events⟩
          : RunResult R) = _
      rw [show (onceChain rest ++ (kid, MWB.callTwiceCatch g) :: onceChain post)
        = (onceChain rest ++ (kid, MWB.callTwiceCatch g) :: onceChain post) from rfl]
      rw [ih]
      simp [applyAll]
  refine ⟨htrace, ?_⟩
  rw [htrace]
  have hpre : (pre.map (fun p => PipeEvent.mwRun p.1)).count PipeEvent.term
      = 0 := by
    rw [List.count_eq_zero]
    intro hmem
    simp at hmem
  have hpost : (post.map (fun p => PipeEvent.mwRun p.1)).count PipeEvent.term
      = 0 := by
    rw [List.count_eq_zero]
    intro hmem
    simp at hmem
  simp [List.count_append, List.count_cons, hpre, hpost]

/-! ## Fetch wrapper claims (C2, C5) -/

/-- C2: for every intercepted call that completes with a response — if the
request matches no registered route, exactly one `ON_NETWORK` and one
`ON_RESPONSE` event are emitted and no `ON_MOCK`; if it matches, exactly
one `ON_MOCK` and one `ON_RESPONSE` and no `ON_NETWORK`. -/
theorem FetchWrapper.event_counts {H O R : Type} (m : RouteMatcher H O)
    (req : ORequest) (handlerResp : R) (chain : List (Nat × MWB R))
    (originalFetch : Except String R) :
    (RouteMatcher.matchRoute m req.method req.path = .ok none →
      ∀ r : R,
        (FetchWrapper.wrappedFetch m (.ok req) handlerResp chain
          originalFetch).2 = .ok r →
        (FetchWrapper.wrappedFetch m (.ok req) handlerResp chain
            originalFetch).1.count .onNetwork = 1
          ∧ (FetchWrapper.wrappedFetch m (.ok req) handlerResp chain
              originalFetch).1.count .onResponse = 1
          ∧ (FetchWrapper.wrappedFetch m (.ok req) handlerResp chain
              originalFetch).1.count .onMock = 0)
      ∧ (∀ mr : MatchResult H O,
          RouteMatcher.matchRoute m req.method req.path = .ok (some mr) →
          (FetchWrapper.wrappedFetch m (.ok req) handlerResp chain
              originalFetch).1.count .onMock = 1
            ∧ (FetchWrapper.wrappedFetch m (.ok req) handlerResp chain
                originalFetch).1.count .onResponse = 1
            ∧ (FetchWrapper.wrappedFetch m (.ok req) handlerResp chain
                originalFetch).1.count .onNetwork = 0) := by
  rcases hmatch : RouteMatcher.matchRoute m req.method req.path
    with e | _ | mr
  · exact ⟨fun hnone => absurd hnone (by simp),
      fun mr hsome => absurd hsome (by simp)⟩
  · refine ⟨fun _ => ?_, fun mr hsome => absurd hsome (by simp)⟩
    rcases horig : originalFetch with e | v
    · intro r hok
      simp [FetchWrapper.wrappedFetch, hmatch,
        FetchWrapper.forwardToOriginalFetch] at hok
    · intro r _
      simp [FetchWrapper.wrappedFetch, hmatch,
        FetchWrapper.forwardToOriginalFetch, List.count_cons, List.count_nil]
  · refine ⟨fun hnone => absurd hnone (by simp), fun mr' _ => ?_⟩
    simp [FetchWrapper.wrappedFetch, hmatch, List.count_cons, List.count_nil]

theorem FetchWrapper.event_counts_witness :
    (RouteMatcher.matchRoute demoMatcher "GET" "/users/7"
        = Except.ok (some ⟨2, [("id", "7")], 20⟩))
      ∧ ((FetchWrapper.wrappedFetch demoMatcher
            (.ok ⟨"GET", "/users/7", []⟩) (0 : Nat) [] (.ok 0)).1.count
            .onMock = 1
          ∧ (FetchWrapper.wrappedFetch demoMatcher
              (.ok ⟨"GET", "/users/7", []⟩) (0 : Nat) [] (.ok 0)).1.count
              .onResponse = 1
          ∧ (FetchWrapper.wrappedFetch demoMatcher
              (.ok ⟨"GET", "/users/7", []⟩) (0 : Nat) [] (.ok 0)).1.count
              .onNetwork = 0) :=
  ⟨by rfl,
    (FetchWrapper.event_counts demoMatcher ⟨"GET", "/users/7", []⟩ 0 []
        (.ok 0)).2 ⟨2, [("id", "7")], 20⟩ (by rfl)⟩

/-- C5: the only failure that escapes `wrappedFetch` to its caller is a
rejection of the real network call on the forwarding path, propagated
unchanged and with no `ON_RESPONSE` emitted for that call; every matched
(mocked) request settles with a response. -/
theorem FetchWrapper.forwarding_rejection_only_escape {H O R : Type}
    (m : RouteMatcher H O) (parseResult : Except String ORequest)
    (handlerResp : R) (chain : List (Nat × MWB R))
    (originalFetch : Except String R) :
    (∀ err : String,
      (FetchWrapper.wrappedFetch m parseResult handlerResp chain
        originalFetch).2 = .error err →
      originalFetch = .error err
        ∧ (FetchWrapper.wrappedFetch m parseResult handlerResp chain
            originalFetch).1.count .onResponse = 0)
      ∧ (∀ (req : ORequest) (mr : MatchResult H O),
          parseResult = .ok req →
          RouteMatcher.matchRoute m req.method req.path = .ok (some mr) →
          ∃ r : R, (FetchWrapper.wrappedFetch m parseResult handlerResp chain
            originalFetch).2 = .ok r) := by
  constructor
  · intro err herr
    rcases hparse : parseResult with pe | req
    · rcases horig : originalFetch with e | v
      · rw [hparse] at herr
        simp only [FetchWrapper.wrappedFetch, horig,
          FetchWrapper.forwardToOriginalFetch] at herr
        injection herr with h
        subst h
        simp [FetchWrapper.wrappedFetch, hparse, horig,
          FetchWrapper.forwardToOriginalFetch]
      · rw [hparse] at herr
        simp [FetchWrapper.wrappedFetch, horig,
          FetchWrapper.forwardToOriginalFetch] at herr
    · rw [hparse] at herr
      rcases hmatch : RouteMatcher.matchRoute m req.method req.path
        with e | _ | mr
      · rcases horig : originalFetch with oe | v
        · simp only [FetchWrapper.wrappedFetch, hmatch, horig,
            FetchWrapper.forwardToOriginalFetch] at herr
          injection herr with h
          subst h
          simp [FetchWrapper.wrappedFetch, hparse, hmatch, horig,
            FetchWrapper.forwardToOriginalFetch]
        · simp [FetchWrapper.wrappedFetch, hmatch, horig,
            FetchWrapper.forwardToOriginalFetch] at herr
      · rcases horig : originalFetch with oe | v
        · simp only [FetchWrapper.wrappedFetch, hmatch, horig,
            FetchWrapper.forwardToOriginalFetch] at herr
          injection herr with h
          subst h
          simp [FetchWrapper.wrappedFetch, hparse, hmatch, horig,
            FetchWrapper.forwardToOriginalFetch]
        · simp [FetchWrapper.wrappedFetch, hmatch, horig,
            FetchWrapper.forwardToOriginalFetch] at herr
      · simp [FetchWrapper.wrappedFetch, hmatch] at herr
  · intro req mr hparse hmatch
    subst hparse
    refine ⟨(MiddlewarePipeline.execute handlerResp chain).resp, ?_⟩
    simp [FetchWrapper.wrappedFetch, hmatch]

theorem FetchWrapper.forwarding_rejection_only_escape_witness :
    ((Except.error "boom" : Except String Nat) = Except.error "boom"
        ∧ (FetchWrapper.wrappedFetch demoMatcher
            (.ok ⟨"GET", "/nope", []⟩) (0 : Nat) []
            (Except.error "boom")).1.count .onResponse = 0) :=
  (FetchWrapper.forwarding_rejection_only_escape demoMatcher
      (.ok ⟨"GET", "/nope", []⟩) 0 [] (Except.error "boom")).1 "boom"
    (by rfl)

/-! ## State store claims (C7, C9) -/

theorem mapGet?_append_not_found {α β : Type} [DecidableEq α] :
    ∀ (l : List (α × β)) (k : α) (v : β),
      mapGet? l k = none → mapGet? (l ++ [(k, v)]) k = some v := by
  intro l
  induction l with
  | nil => intro k v _; simp [mapGet?]
  | cons hd rest ih =>
    intro k v hget
    obtain ⟨k0, a0⟩ := hd
    simp only [mapGet?] at hget
    by_cases hk : k0 = k
    · rw [if_pos hk] at hget; simp at hget
    · rw [if_neg hk] at hget
      rw [List.cons_append]
      simp only [mapGet?]
      rw [if_neg hk]
      exact ih k v hget

/-- C7 counterexample: from a manager state in which the key is already
present (holding 0), `createStore(key, 1)` followed by `createStore(key, 2)`
returns the same container, but it holds 0 — not the value derived from v1
— so the claim fails for such manager states. -/
theorem StateStoreManager.createStore_preexisting_key_keeps_old_value :
    ((StateStoreManager.empty.createStore "k" (0 : Nat)).1.createStore "k"
          1).2.1
        = (((StateStoreManager.empty.createStore "k" (0 : Nat)).1.createStore
            "k" 1).1.createStore "k" 2).2.1
      ∧ (((StateStoreManager.empty.createStore "k" (0 : Nat)).1.createStore
            "k" 1).1.createStore "k" 2).1.storeData.get?
          ((((StateStoreManager.empty.createStore "k"
            (0 : Nat)).1.createStore "k" 1).1.createStore "k" 2).2.1)
        = some 0
      ∧ some (0 : Nat) ≠ some 1 := by
  refine ⟨by decide, by decide, by decide⟩

/-- C7 amended: for every manager state in which the key is not yet present,
`createStore(key, v1)` followed by `createStore(key, v2)` returns the very
same container instance still holding v1: the second call returns the first
call's container address, leaves the manager (and hence the container's
state) unchanged, discards v2, and fires the already-exists warning. -/
theorem StateStoreManager.createStore_first_writer_wins {V : Type}
    (mgr : StateStoreManager V) (key : String) (v1 v2 : V)
    (h : mgr.hasStore key = false) :
    ((mgr.createStore key v1).1.createStore key v2).2.1
        = (mgr.createStore key v1).2.1
      ∧ ((mgr.createStore key v1).1.createStore key v2).1
        = (mgr.createStore key v1).1
      ∧ ((mgr.createStore key v1).1.createStore key v2).2.2 = true
      ∧ (mgr.createStore key v1).1.storeData.get?
          (mgr.createStore key v1).2.1 = some v1 := by
  have hget : mapGet? mgr.stores key = none := by
    rw [StateStoreManager.hasStore] at h
    rcases hx : mapGet? mgr.stores key with _ | a
    · rfl
    · rw [hx] at h; simp at h
  have hfirst : mgr.createStore key v1
      = (⟨mgr.stores ++ [(key, mgr.storeData.length)],
          mgr.storeData ++ [v1]⟩, mgr.storeData.length, false) := by
    rw [StateStoreManager.createStore, if_neg (by simp [h])]
  have hmem : mapGet? (mgr.stores ++ [(key, mgr.storeData.length)]) key
      = some mgr.storeData.length :=
    mapGet?_append_not_found mgr.stores key mgr.storeData.length hget
  have hhas : (mgr.createStore key v1).1.hasStore key = true := by
    rw [hfirst, StateStoreManager.hasStore]
    simp [hmem]
  have hsecond : (mgr.createStore key v1).1.createStore key v2
      = ((mgr.createStore key v1).1,
          (mapGet? (mgr.createStore key v1).1.stores key).getD 0, true) := by
    rw [StateStoreManager.createStore, if_pos hhas]
  refine ⟨?_, ?_, ?_, ?_⟩
  · rw [hsecond]
    rw [hfirst]
    simp [hmem]
  · rw [hsecond]
  · rw [hsecond]
  · rw [hfirst]
    simp

theorem StateStoreManager.createStore_first_writer_wins_witness :
    (StateStoreManager.empty : StateStoreManager Nat).hasStore "cart" = false
      ∧ (((StateStoreManager.empty.createStore "cart"
            (5 : Nat)).1.createStore "cart" 6).2.1
          = (StateStoreManager.empty.createStore "cart" (5 : Nat)).2.1
        ∧ ((StateStoreManager.empty.createStore "cart"
            (5 : Nat)).1.createStore "cart" 6).1
          = (StateStoreManager.empty.createStore "cart" (5 : Nat)).1
        ∧ ((StateStoreManager.empty.createStore "cart"
            (5 : Nat)).1.createStore "cart" 6).2.2 = true
        ∧ (StateStoreManager.empty.createStore "cart"
            (5 : Nat)).1.storeData.get?
            (StateStoreManager.empty.createStore "cart" (5 : Nat)).2.1
          = some 5) :=
  ⟨by decide,
    StateStoreManager.createStore_first_writer_wins StateStoreManager.empty
      "cart" 5 6 (by decide)⟩

/-- C9: a view handed out by `get()` is bound to the object the store held
at that moment: `set` (either form) replaces the stored reference and never
writes to existing heap cells, so the earlier view still reads the earlier
value, while a fresh `get()` reads the new one. -/
theorem StateStore.get_view_bound_at_get_time {V : Type} (h : Heap V)
    (s : StateStore) (f : V → V) (a' : Nat)
    (hvalid : s.data < h.next) :
    ((s.setUpdater h f).1.read (StateStore.get s) = h.read (StateStore.get s)
        ∧ (s.setUpdater h f).1.read (StateStore.get (s.setUpdater h f).2)
          = f (h.read (StateStore.get s))
        ∧ (∀ a, a < h.next → (s.setUpdater h f).1.read a = h.read a))
      ∧ (h.read (StateStore.get (s.setValue a')) = h.read a'
        ∧ StateStore.get (s.setValue a') = a') := by
  refine ⟨⟨?_, ?_, ?_⟩, ⟨rfl, rfl⟩⟩
  · rw [StateStore.setUpdater]
    simp only [Heap.alloc, Heap.read, StateStore.get]
    rw [if_neg (by omega)]
  · rw [StateStore.setUpdater]
    simp [Heap.alloc, Heap.read, StateStore.get]
  · intro a ha
    rw [StateStore.setUpdater]
    simp only [Heap.alloc, Heap.read]
    rw [if_neg (by omega)]

/-- Concrete heap for the C9 witness: one allocated cell holding 7. -/
def demoHeap : Heap Nat := ⟨fun _ => 7, 1⟩

/-- Concrete store for the C9 witness, holding the reference to cell 0. -/
def demoStore : StateStore := ⟨0⟩

/-- Concrete updater for the C9 witness. -/
def demoUpdater (v : Nat) : Nat := v + 1

theorem StateStore.get_view_bound_at_get_time_witness :
    demoStore.data < demoHeap.next
      ∧ (((demoStore.setUpdater demoHeap demoUpdater).1.read
            (StateStore.get demoStore)
            = demoHeap.read (StateStore.get demoStore)
          ∧ (demoStore.setUpdater demoHeap demoUpdater).1.read
              (StateStore.get (demoStore.setUpdater demoHeap demoUpdater).2)
            = demoUpdater (demoHeap.read (StateStore.get demoStore))
          ∧ (∀ a, a < demoHeap.next →
              (demoStore.setUpdater demoHeap demoUpdater).1.read a
                = demoHeap.read a))
        ∧ (demoHeap.read (StateStore.get (demoStore.setValue 5))
            = demoHeap.read 5
          ∧ StateStore.get (demoStore.setValue 5) = 5)) :=
  ⟨by decide,
    StateStore.get_view_bound_at_get_time demoHeap demoStore demoUpdater 5
      (by decide)⟩

/-! ## Request parser claim (C10) -/

/-- C10: `createWithParams(base, params)` returns a fresh record whose
`params` field is exactly the given reference and whose every other field —
including the `query` and `headers` references, which stay shared with the
pre-match record — is taken unchanged from the base request. -/
theorem RequestParser.createWithParams_frame {B : Type}
    (base : MockRequest B) (ps : Nat) :
    (RequestParser.createWithParams base ps).params = ps
      ∧ (RequestParser.createWithParams base ps).body = base.body
      ∧ (RequestParser.createWithParams base ps).baseUrl = base.baseUrl
      ∧ (RequestParser.createWithParams base ps).method = base.method
      ∧ (RequestParser.createWithParams base ps).query = base.query
      ∧ (RequestParser.createWithParams base ps).path = base.path
      ∧ (RequestParser.createWithParams base ps).host = base.host
      ∧ (RequestParser.createWithParams base ps).hostname = base.hostname
      ∧ (RequestParser.createWithParams base ps).headers = base.headers :=
  ⟨rfl, rfl, rfl, rfl, rfl, rfl, rfl, rfl, rfl⟩

/-! ## Event emitter claim (C4) -/

/-- C4 counterexample: registering the same handler twice for the same
event adds two distinct wrapper listeners to the `EventTarget`, so an
emission invokes the handler twice — not once; and after one `off` (which
returns true) the handler is still invoked once per emission, because only
the most recently recorded wrapper was removed. -/
theorem EventEmitter.double_on_not_single_registration :
    (EventEmitter.emit ((EventEmitter.empty.on "E" 7).on "E" 7) "E").count 7
        = 2
      ∧ (((EventEmitter.empty.on "E" 7).on "E" 7).off "E" 7).2 = true
      ∧ EventEmitter.emit ((((EventEmitter.empty.on "E" 7).on "E" 7).off
          "E" 7).1) "E" = [7] :=
  ⟨by decide, by decide, by decide⟩

/-- C4 amended: on a fresh emitter, `on(e, h)` twice produces two
underlying listener registrations: `emit` invokes `h` twice per emission;
a single `off(e, h)` returns true but removes only the wrapper of the most
recent registration, so `emit` still invokes `h` once; a further
`off(e, h)` returns false (the `handlerMap` entry is gone), leaving the
first wrapper unremovable through `off`. -/
theorem EventEmitter.double_on_two_registrations (e : String) (h : Nat) :
    EventEmitter.emit ((EventEmitter.empty.on e h).on e h) e = [h, h]
      ∧ (((EventEmitter.empty.on e h).on e h).off e h).2 = true
      ∧ EventEmitter.emit ((((EventEmitter.empty.on e h).on e h).off e h).1)
          e = [h]
      ∧ (((((EventEmitter.empty.on e h).on e h).off e h).1).off e h).2
          = false := by
  refine ⟨?_, ?_, ?_, ?_⟩ <;>
    simp [EventEmitter.on, EventEmitter.off, EventEmitter.emit,
      EventEmitter.empty, mapGet?, mapSet, mapDelete, removeFirst,
      List.filter, List.filterMap]
